import Mathlib

/-!
# Verification of the sales-data ETL pipeline

Shallow embedding of `src/etl_pipeline.py` (class `SalesETL`) and
`src/query_runner.py` (class `QueryRunner`) of the repository
`ysnega/cybersecurity-etl-assignment`, together with theorems settling the
claims about the specification.

Modelling conventions:
  * Decimal amounts (price, cost, revenue) are rationals (`ℚ`): the claims are
    about exact arithmetic identities of the stored values, not about binary
    float representation.
  * A pandas `DataFrame` column becomes a Lean `List` of typed rows.
  * `pandas.Series.unique` keeps the first occurrence of each value in order;
    it is embedded as `uniqueFirst` below.
  * `pd.merge(..., on=..., how=..)` with the `left` strategy becomes
    `mergeLeft`: each left row produces one output row per matching right row,
    or a single row with no right attributes when there is no match.
  * The SQLite store is a record of the four star-schema tables; `none` means
    the table does not exist, `some rows` is an existing table with its rows.
    A connection carries a committed store and a pending store; `commit`
    publishes the pending state, closing a connection without commit discards
    pending changes.  `PRIMARY KEY` enforcement on insert is embedded in
    `insertPK` (a violating bulk insert raises, i.e. returns `none`).
-/

namespace SalesETL

/-- Helper for `uniqueFirst`: keep each element not seen before, tracking the
set of already-emitted values in `seen`. -/
def uniqueFirstAux {α : Type} [DecidableEq α] (seen : List α) :
    List α → List α
  | [] => []
  | a :: l =>
    if a ∈ seen then uniqueFirstAux seen l
    else a :: uniqueFirstAux (a :: seen) l

/-- `pandas.Series.unique`: first occurrence of each value, in order. -/
def uniqueFirst {α : Type} [DecidableEq α] (l : List α) : List α :=
  uniqueFirstAux [] l

theorem mem_uniqueFirstAux {α : Type} [DecidableEq α] (a : α) :
    ∀ (l seen : List α), a ∈ uniqueFirstAux seen l ↔ a ∈ l ∧ a ∉ seen := by
  intro l
  induction l with
  | nil => simp [uniqueFirstAux]
  | cons b l ih =>
    intro seen
    rw [uniqueFirstAux]
    by_cases hb : b ∈ seen
    · rw [if_pos hb, ih]
      simp only [List.mem_cons]
      constructor
      · rintro ⟨h1, h2⟩; exact ⟨Or.inr h1, h2⟩
      · rintro ⟨h1 | h1, h2⟩
        · exact absurd (h1 ▸ hb) h2
        · exact ⟨h1, h2⟩
    · rw [if_neg hb]
      by_cases hab : a = b
      · subst hab; simp [hb]
      · simp [ih, hab]

theorem nodup_uniqueFirstAux {α : Type} [DecidableEq α] :
    ∀ (l seen : List α), (uniqueFirstAux seen l).Nodup := by
  intro l
  induction l with
  | nil => simp [uniqueFirstAux]
  | cons b l ih =>
    intro seen
    rw [uniqueFirstAux]
    by_cases hb : b ∈ seen
    · rw [if_pos hb]; exact ih seen
    · rw [if_neg hb]
      refine List.nodup_cons.mpr ⟨?_, ih _⟩
      intro hmem
      have := (mem_uniqueFirstAux b l _).mp hmem
      simp at this

theorem mem_uniqueFirst {α : Type} [DecidableEq α] (a : α) (l : List α) :
    a ∈ uniqueFirst l ↔ a ∈ l := by
  simp [uniqueFirst, mem_uniqueFirstAux]

theorem nodup_uniqueFirst {α : Type} [DecidableEq α] (l : List α) :
    (uniqueFirst l).Nodup :=
  nodup_uniqueFirstAux l []

/-- A calendar date as produced by `pd.to_datetime(...)`. -/
structure Date where
  year : Nat
  month : Nat
  day : Nat
deriving DecidableEq, Repr

/-- A calendar date that the datetime layer can actually produce: the year
prints as four digits and month and day as two.  Every date parsed from a
date string satisfies this. -/
def ValidDate (d : Date) : Prop :=
  d.year < 10000 ∧ d.month < 100 ∧ d.day < 100

instance (d : Date) : Decidable (ValidDate d) := by
  unfold ValidDate; infer_instance

/-- The ASCII digit character for `n % 10`. -/
def dChar (n : Nat) : Char := Char.ofNat (48 + n % 10)

/-- `strftime(%Y-%m-%d)`: the canonical `YYYY-MM-DD` rendering of a date
(etl_pipeline.py line 105 and line 130). -/
def dateKey (d : Date) : String :=
  String.mk [dChar (d.year / 1000), dChar (d.year / 100), dChar (d.year / 10),
    dChar d.year, Char.ofNat 45,
    dChar (d.month / 10), dChar d.month, Char.ofNat 45,
    dChar (d.day / 10), dChar d.day]

/-- `strftime(%B)`: full English month name (etl_pipeline.py line 135). -/
def monthName (m : Nat) : String :=
  match m with
  | 1 => "January" | 2 => "February" | 3 => "March" | 4 => "April"
  | 5 => "May" | 6 => "June" | 7 => "July" | 8 => "August"
  | 9 => "September" | 10 => "October" | 11 => "November" | 12 => "December"
  | _ => ""

theorem dChar_eq_iff (a b : Nat) : dChar a = dChar b ↔ a % 10 = b % 10 := by
  constructor
  · intro h
    have ha : a % 10 < 10 := Nat.mod_lt _ (by omega)
    have hb : b % 10 < 10 := Nat.mod_lt _ (by omega)
    have key : ∀ x, x < 10 → ∀ y, y < 10 →
        Char.ofNat (48 + x) = Char.ofNat (48 + y) → x = y := by decide
    exact key _ ha _ hb (by simpa [dChar] using h)
  · intro h
    simp [dChar, h]

theorem dateKey_injOn (d1 d2 : Date) (h1 : ValidDate d1) (h2 : ValidDate d2)
    (h : dateKey d1 = dateKey d2) : d1 = d2 := by
  obtain ⟨hy1, hm1, hd1⟩ := h1
  obtain ⟨hy2, hm2, hd2⟩ := h2
  unfold dateKey at h
  injection h with hdata
  simp only [List.cons.injEq, and_true] at hdata
  obtain ⟨e1, e2, e3, e4, -, e5, e6, -, e7, e8⟩ := hdata
  rw [dChar_eq_iff] at e1 e2 e3 e4 e5 e6 e7 e8
  obtain ⟨y1, m1, dd1⟩ := d1
  obtain ⟨y2, m2, dd2⟩ := d2
  simp only [Date.mk.injEq] at e1 e2 e3 e4 e5 e6 e7 e8 hy1 hm1 hd1 hy2 hm2 hd2 ⊢
  refine ⟨by omega, by omega, by omega⟩

/-- A row of the orders CSV source (`data/orders.csv` header:
`OrderID,ProductID,CustomerID,OrderDate,Quantity,Price`). -/
structure OrderRecord where
  orderID : Int
  productID : String
  customerID : String
  orderDate : Date
  quantity : Int
  price : ℚ
deriving DecidableEq, Repr

/-- A row of the products CSV source (`data/products.csv` header:
`ProductID,ProductName,Category,Cost`). -/
structure ProductRecord where
  productID : String
  productName : String
  category : String
  cost : ℚ
deriving DecidableEq, Repr

/-- A row of the `fact_sales` table, restricted to the columns the load stage
persists (etl_pipeline.py line 158); the auto-increment surrogate `id` is the
position in the list and is not modelled as a field. -/
structure FactRow where
  order_id : Int
  product_id : String
  customer_id : String
  date_key : String
  quantity : Int
  price : ℚ
  revenue : ℚ
deriving DecidableEq, Repr

/-- A row of `dim_product` (rename of a product record,
etl_pipeline.py lines 111-116). -/
structure DimProductRow where
  product_id : String
  product_name : String
  category : String
  cost : ℚ
deriving DecidableEq, Repr

/-- A row of `dim_date` (etl_pipeline.py lines 129-137). -/
structure DimDateRow where
  date_key : String
  full_date : Date
  year : Nat
  month : Nat
  day : Nat
  month_name : String
  quarter : Nat
deriving DecidableEq, Repr

/-- `pd.merge(orders, products, on=ProductID, how=left)`
(etl_pipeline.py line 108): every order row joined against each product row
with the same `ProductID`; an order with no match keeps one row whose product
attributes are absent. -/
def mergeLeft (orders : List OrderRecord) (products : List ProductRecord) :
    List (OrderRecord × Option ProductRecord) :=
  orders.flatMap fun o =>
    match products.filter (fun p => p.productID == o.productID) with
    | [] => [(o, none)]
    | ps => ps.map fun p => (o, some p)

/-- Revenue derivation (etl_pipeline.py line 103):
`orders[revenue] = orders[Quantity] * orders[Price]`. -/
def revenueOf (o : OrderRecord) : ℚ := (o.quantity : ℚ) * o.price

/-- The persisted fact columns of one merged row
(etl_pipeline.py lines 152-158): only the order-side columns plus the derived
`date_key` and `revenue` are kept; joined product attributes are dropped. -/
def mkFactRow (o : OrderRecord) : FactRow :=
  { order_id := o.orderID
    product_id := o.productID
    customer_id := o.customerID
    date_key := dateKey o.orderDate
    quantity := o.quantity
    price := o.price
    revenue := revenueOf o }

/-- Product dimension construction (etl_pipeline.py lines 111-116): a pure
rename of the product source columns. -/
def productDim (products : List ProductRecord) : List DimProductRow :=
  products.map fun p =>
    { product_id := p.productID
      product_name := p.productName
      category := p.category
      cost := p.cost }

/-- Customer dimension construction (etl_pipeline.py lines 119-121):
`orders[CustomerID].unique()`. -/
def customerDim (orders : List OrderRecord) : List String :=
  uniqueFirst (orders.map fun o => o.customerID)

/-- One `dim_date` row derived from a distinct order date
(etl_pipeline.py lines 126-137). -/
def mkDateRow (d : Date) : DimDateRow :=
  { date_key := dateKey d
    full_date := d
    year := d.year
    month := d.month
    day := d.day
    month_name := monthName d.month
    quarter := (d.month - 1) / 3 + 1 }

/-- Date dimension construction (etl_pipeline.py lines 123-139): one row per
distinct order date, in first-occurrence order. -/
def dateDim (orders : List OrderRecord) : List DimDateRow :=
  (uniqueFirst (orders.map fun o => o.orderDate)).map mkDateRow

/-- The intermediate frames `SalesETL.process_data` leaves on the instance:
`sales_data` projected to the persisted fact columns, and the three prepared
dimension frames. -/
structure Processed where
  fact : List FactRow
  product_dim : List DimProductRow
  customer_dim : List String
  date_dim : List DimDateRow
deriving DecidableEq, Repr

/-- `SalesETL.process_data` (etl_pipeline.py lines 96-140). -/
def process_data (orders : List OrderRecord) (products : List ProductRecord) :
    Processed :=
  { fact := (mergeLeft orders products).map fun op => mkFactRow op.1
    product_dim := productDim products
    customer_dim := customerDim orders
    date_dim := dateDim orders }

/-- The SQLite database file restricted to the four star-schema tables.
`none` means the table does not exist. -/
structure Store where
  fact_sales : Option (List FactRow)
  dim_product : Option (List DimProductRow)
  dim_date : Option (List DimDateRow)
  dim_customer : Option (List String)
deriving DecidableEq, Repr

/-- An open SQLite connection: the durable committed state and the pending
state of the current transaction.  `conn.commit()` publishes pending;
`conn.close()` without a commit discards pending changes. -/
structure Conn where
  committed : Store
  pending : Store
deriving DecidableEq, Repr

/-- `conn.commit()`. -/
def commit (c : Conn) : Conn := { committed := c.pending, pending := c.pending }

/-- The store after `DROP TABLE IF EXISTS` on all four tables followed by the
four `CREATE TABLE` statements: every table exists and is empty. -/
def emptySchemaStore : Store :=
  { fact_sales := some []
    dim_product := some []
    dim_date := some []
    dim_customer := some [] }

/-- `SalesETL.setup_database` (etl_pipeline.py lines 21-80): drop the four
tables if they exist, recreate them, and commit. -/
def setup_database (c : Conn) : Conn :=
  commit { c with pending := emptySchemaStore }

/-- Bulk insert (`DataFrame.to_sql(..., if_exists=append)`) into a table whose
declared `PRIMARY KEY` is `key`: appends the rows, but the statement raises an
integrity error (`none`) if the resulting table would hold a duplicate key,
and also if the table does not exist. -/
def insertPK {ρ κ : Type} [DecidableEq κ] (key : ρ → κ)
    (tbl : Option (List ρ)) (rows : List ρ) : Option (List ρ) :=
  match tbl with
  | none => none
  | some ex =>
    if ((ex ++ rows).map key).Nodup then some (ex ++ rows) else none

/-- Bulk insert into `fact_sales`: its only primary key is the
auto-increment surrogate, which cannot collide, so the insert appends
unconditionally (but still needs the table to exist). -/
def insertFact (tbl : Option (List FactRow)) (rows : List FactRow) :
    Option (List FactRow) :=
  match tbl with
  | none => none
  | some ex => some (ex ++ rows)

/-- `SalesETL.save_to_database` (etl_pipeline.py lines 142-164): insert the
three dimension frames, then the fact frame, then commit.  `none` models an
exception escaping to the caller before the commit. -/
def save_to_database (c : Conn) (pd : Processed) : Option Conn :=
  match insertPK (fun r => r.product_id) c.pending.dim_product pd.product_dim with
  | none => none
  | some tp =>
    match insertPK (fun r => r) c.pending.dim_customer pd.customer_dim with
    | none => none
    | some tc =>
      match insertPK (fun r => r.date_key) c.pending.dim_date pd.date_dim with
      | none => none
      | some td =>
        match insertFact c.pending.fact_sales pd.fact with
        | none => none
        | some tf =>
          some (commit { c with pending :=
            { fact_sales := some tf
              dim_product := some tp
              dim_date := some td
              dim_customer := some tc } })

/-- `SalesETL.run_pipeline` (etl_pipeline.py lines 166-192).  The order and
product inputs are `none` when the corresponding CSV file is missing
(`load_csv_files` then returns `False`).  The result is the returned success
flag together with the durable store after the `finally` block closed the
connection: an uncommitted pending state is discarded, the committed state
survives.  Totality of this function models that no exception propagates past
the pipeline boundary. -/
def run_pipeline (ordersSrc : Option (List OrderRecord))
    (productsSrc : Option (List ProductRecord)) (s : Store) : Bool × Store :=
  let c := setup_database { committed := s, pending := s }
  match ordersSrc, productsSrc with
  | some orders, some products =>
    match save_to_database c (process_data orders products) with
    | some c2 => (true, c2.committed)
    | none => (false, c.committed)
  | _, _ => (false, c.committed)

/-- The store contents a successful run produces. -/
def loadedStore (orders : List OrderRecord) (products : List ProductRecord) :
    Store :=
  { fact_sales := some (process_data orders products).fact
    dim_product := some (process_data orders products).product_dim
    dim_date := some (process_data orders products).date_dim
    dim_customer := some (process_data orders products).customer_dim }

end SalesETL

namespace QueryRunner

open SalesETL

/-- Default database file of the ETL load stage
(etl_pipeline.py line 17: `db_name=sales_data.db`). -/
def etlDbName : String := "sales_data.db"

/-- Default database file of the query stage
(query_runner.py line 16: `db_path=sales_datawarehouse.db`). -/
def queryDbPath : String := "sales_datawarehouse.db"

/-- The table names the load stage drops and creates
(etl_pipeline.py lines 30 and 35-77). -/
def loadTableNames : List String :=
  ["fact_sales", "dim_product", "dim_date", "dim_customer"]

/-- The table names the report queries reference
(query_runner.py lines 45-165). -/
def queryTableNames : List String :=
  ["FactSales", "DimProduct", "DimDate", "DimCustomer"]

/-- The `fact_sales` column names the load stage populates
(etl_pipeline.py line 158). -/
def loadFactColumns : List String :=
  ["order_id", "product_id", "customer_id", "date_key", "quantity", "price",
   "revenue"]

/-- The fact-table column names the report queries reference
(`f.`-qualified columns in query_runner.py). -/
def queryFactColumns : List String :=
  ["OrderID", "ProductID", "CustomerID", "DateKey", "Quantity", "Price",
   "Revenue"]

/-- ASCII lower-casing of one character, as SQLite uses when comparing
identifiers case-insensitively. -/
def lowerChar (c : Char) : Char :=
  if 65 ≤ c.toNat ∧ c.toNat ≤ 90 then Char.ofNat (c.toNat + 32) else c

/-- ASCII lower-casing of an identifier. -/
def lowerStr (s : String) : String := String.mk (s.data.map lowerChar)

/-- SQLite `ROUND(x, 2)`: rounding to two decimals, half away from zero.
Presentation-level only; kept so that query outputs mirror the SQL columns. -/
def sqlRound2 (q : ℚ) : ℚ :=
  (if q < 0 then -(⌊-q * 100 + 1 / 2⌋ : ℚ) else (⌊q * 100 + 1 / 2⌋ : ℚ)) / 100

/-- One output row of `run_product_performance`, restricted to the columns the
claims are about.  `profitMarginPercent` is `none` when SQLite produced `NULL`
(division by zero yields `NULL`, not an error).
`divisionByZeroEvaluated` records whether, while computing this row, the
`/ SUM(f.Revenue)` division of the margin expression was evaluated with a
zero denominator: the SQL text applies the division to every group with no
`CASE`/`NULLIF` guard, so the flag is true exactly when the group revenue sums
to zero. -/
structure PerfRow where
  productName : String
  category : String
  timesOrdered : Nat
  totalRevenue : ℚ
  totalProfit : ℚ
  profitMarginPercent : Option ℚ
  divisionByZeroEvaluated : Bool
deriving DecidableEq, Repr

/-- `QueryRunner.run_product_performance` (query_runner.py lines 86-104):
`FROM FactSales f JOIN DimProduct p ON f.ProductID = p.ProductID GROUP BY
p.ProductID, ...` — one group per product row having at least one matching
fact row (output order by descending revenue is presentation and is not
modelled). -/
def run_product_performance (facts : List FactRow)
    (dim : List DimProductRow) : List PerfRow :=
  (dim.filter fun p => facts.any fun f => f.product_id == p.product_id).map
    fun p =>
      let rows := facts.filter fun f => f.product_id == p.product_id
      let totalRevenue := (rows.map fun f => f.revenue).sum
      let totalProfit :=
        totalRevenue - (rows.map fun f => p.cost * (f.quantity : ℚ)).sum
      { productName := p.product_name
        category := p.category
        timesOrdered := rows.length
        totalRevenue := sqlRound2 totalRevenue
        totalProfit := sqlRound2 totalProfit
        profitMarginPercent :=
          if totalRevenue = 0 then none
          else some (sqlRound2 (totalProfit / totalRevenue * 100))
        divisionByZeroEvaluated := totalRevenue == 0 }

/-- The first branch of `QueryRunner.run_data_quality_check`
(query_runner.py lines 144-148): `SELECT COUNT(*) FROM FactSales f LEFT JOIN
DimProduct p ON f.ProductID = p.ProductID WHERE p.ProductID IS NULL` — the
number of fact rows whose product identifier matches no product dimension
row. -/
def missingProductReferences (facts : List FactRow)
    (dim : List DimProductRow) : Nat :=
  (facts.filter fun f => !(dim.any fun p => p.product_id == f.product_id)).length

end QueryRunner

namespace SalesETL

/-! ## Concrete sample inputs

The order and product rows of the worked scenario in the specification
(they are also the first rows of `create_test_data` in etl_pipeline.py). -/

def orderA : OrderRecord :=
  { orderID := 1001, productID := "P001", customerID := "C101"
    orderDate := { year := 2024, month := 1, day := 5 }
    quantity := 2, price := 155 / 10 }

def orderB : OrderRecord :=
  { orderID := 1002, productID := "P002", customerID := "C102"
    orderDate := { year := 2024, month := 1, day := 5 }
    quantity := 1, price := 25 }

/-- An order whose product identifier is absent from the product source. -/
def orderMissingProduct : OrderRecord :=
  { orderID := 1003, productID := "P999", customerID := "C103"
    orderDate := { year := 2024, month := 1, day := 6 }
    quantity := 1, price := 5 }

/-- An order with a zero unit price, hence zero revenue. -/
def orderZeroPrice : OrderRecord :=
  { orderID := 1004, productID := "P001", customerID := "C104"
    orderDate := { year := 2024, month := 1, day := 7 }
    quantity := 1, price := 0 }

def keyboard : ProductRecord :=
  { productID := "P001", productName := "Keyboard", category := "Peripherals"
    cost := 10 }

def mouse : ProductRecord :=
  { productID := "P002", productName := "Mouse", category := "Peripherals"
    cost := 18 }

def sampleOrders : List OrderRecord := [orderA, orderB]

def sampleProducts : List ProductRecord := [keyboard, mouse]

/-- A pre-run store in which none of the four tables exists yet. -/
def noTablesStore : Store :=
  { fact_sales := none, dim_product := none, dim_date := none
    dim_customer := none }

/-- A pre-run store already populated by an earlier load: one fact row and a
product dimension row are present. -/
def populatedStore : Store :=
  { fact_sales := some [mkFactRow orderA]
    dim_product := some (productDim [keyboard])
    dim_date := some (dateDim [orderA])
    dim_customer := some (customerDim [orderA]) }

end SalesETL

namespace SalesETL

/-! ## Inversion and counting lemmas about the embedded pipeline -/

/-- The connection state right after `setup_database`, whatever the pre-run
store was. -/
def connEmpty : Conn :=
  { committed := emptySchemaStore, pending := emptySchemaStore }

/-- The store holding exactly the frames of one processed dataset. -/
def loadedOf (pd : Processed) : Store :=
  { fact_sales := some pd.fact
    dim_product := some pd.product_dim
    dim_date := some pd.date_dim
    dim_customer := some pd.customer_dim }

theorem setup_database_const (s : Store) :
    setup_database { committed := s, pending := s } = connEmpty := rfl

theorem loadedStore_eq_loadedOf (orders : List OrderRecord)
    (products : List ProductRecord) :
    loadedStore orders products = loadedOf (process_data orders products) := rfl

theorem insertPK_empty_some {ρ κ : Type} [DecidableEq κ] (key : ρ → κ)
    (rows t : List ρ) (h : insertPK key (some []) rows = some t) :
    t = rows ∧ (rows.map key).Nodup := by
  simp only [insertPK, List.nil_append] at h
  split at h
  · rename_i hn
    injection h with h
    exact ⟨h.symm, hn⟩
  · cases h

theorem insertPK_empty_pos {ρ κ : Type} [DecidableEq κ] (key : ρ → κ)
    (rows : List ρ) (hn : (rows.map key).Nodup) :
    insertPK key (some []) rows = some rows := by
  simp [insertPK, hn]

theorem insertFact_empty_some (rows t : List FactRow)
    (h : insertFact (some []) rows = some t) : t = rows := by
  simp only [insertFact, List.nil_append] at h
  injection h with h
  exact h.symm

theorem save_connEmpty_some (pd : Processed) (c2 : Conn)
    (h : save_to_database connEmpty pd = some c2) :
    c2 = { committed := loadedOf pd, pending := loadedOf pd } ∧
    (pd.product_dim.map fun r => r.product_id).Nodup ∧
    pd.customer_dim.Nodup ∧
    (pd.date_dim.map fun r => r.date_key).Nodup := by
  simp only [save_to_database, connEmpty, emptySchemaStore] at h
  split at h
  · cases h
  next tp hp =>
    split at h
    · cases h
    next tc hc =>
      split at h
      · cases h
      next td hd =>
        split at h
        · cases h
        next tf hf =>
          obtain ⟨htp, hnp⟩ := insertPK_empty_some _ _ _ hp
          obtain ⟨htc, hnc⟩ := insertPK_empty_some _ _ _ hc
          obtain ⟨htd, hnd⟩ := insertPK_empty_some _ _ _ hd
          have htf := insertFact_empty_some _ _ hf
          subst htp htc htd htf
          injection h with h
          refine ⟨h.symm, hnp, by simpa using hnc, hnd⟩

theorem save_connEmpty_pos (pd : Processed)
    (hp : (pd.product_dim.map fun r => r.product_id).Nodup)
    (hc : pd.customer_dim.Nodup)
    (hd : (pd.date_dim.map fun r => r.date_key).Nodup) :
    save_to_database connEmpty pd =
      some { committed := loadedOf pd, pending := loadedOf pd } := by
  simp only [save_to_database, connEmpty, emptySchemaStore,
    insertPK_empty_pos _ _ hp, insertPK_empty_pos _ _ hd,
    insertPK_empty_pos (fun r => r) _ (by simpa using hc)]
  rfl

theorem count_filter_le_one (products : List ProductRecord)
    (h : (products.map fun p => p.productID).Nodup) (x : String) :
    (products.filter fun p => p.productID == x).length ≤ 1 := by
  induction products with
  | nil => simp
  | cons p ps ih =>
    simp only [List.map_cons, List.nodup_cons, List.mem_map] at h
    obtain ⟨hnot, hn⟩ := h
    rw [List.filter_cons]
    by_cases hpx : p.productID = x
    · have hfil : ps.filter (fun q => q.productID == x) = [] := by
        rw [List.filter_eq_nil_iff]
        intro q hq hbq
        exact hnot ⟨q, hq, by simpa [hpx] using hbq⟩
      simp [hpx, hfil]
    · have : (p.productID == x) = false := by simpa using hpx
      simp only [this, Bool.false_eq_true, if_false]
      exact ih hn

theorem mergeLeft_cons (o : OrderRecord) (os : List OrderRecord)
    (products : List ProductRecord) :
    mergeLeft (o :: os) products =
      (match products.filter (fun p => p.productID == o.productID) with
        | [] => [(o, (none : Option ProductRecord))]
        | ps => ps.map fun p => (o, some p)) ++ mergeLeft os products := by
  rw [mergeLeft, List.flatMap_cons]
  rfl

theorem length_mergeLeft (orders : List OrderRecord)
    (products : List ProductRecord)
    (h : ∀ x, (products.filter fun p => p.productID == x).length ≤ 1) :
    (mergeLeft orders products).length = orders.length := by
  induction orders with
  | nil => rfl
  | cons o os ih =>
    rw [mergeLeft_cons, List.length_append, ih]
    cases hf : products.filter (fun p => p.productID == o.productID) with
    | nil =>
      show ([(o, (none : Option ProductRecord))]).length + os.length =
        (o :: os).length
      simp [Nat.add_comm]
    | cons p ps =>
      have h1 := h o.productID
      rw [hf] at h1
      simp only [List.length_cons] at h1
      show ((p :: ps).map fun q => (o, some q)).length + os.length =
        (o :: os).length
      simp only [List.length_map, List.length_cons]
      omega

end SalesETL

namespace Claims

open SalesETL QueryRunner

/-- C3 counterexample: starting from a store in which none of the four tables
exists, a run whose order source is missing does return the failure
indicator, but the `fact_sales` table exists afterwards — `setup_database`
has already dropped, recreated and committed the schema before the missing
input is detected, contradicting the claim that no tables are created. -/
theorem C3_counterexample :
    (run_pipeline none (some sampleProducts) noTablesStore).1 = false ∧
    noTablesStore.fact_sales = none ∧
    (run_pipeline none (some sampleProducts) noTablesStore).2.fact_sales
      = some [] := ⟨rfl, rfl, rfl⟩

/-- C3 amended: when the order source file (or the product source file) is
missing, the pipeline run returns the failure indicator, no exception
propagates past the pipeline boundary (the run function is total), the store
connection is still released, and no rows are populated — but the four tables
have already been dropped and recreated empty and that schema committed
before the input check, so the run leaves empty tables in the store. -/
theorem C3_missing_input_clean_abort (ordersSrc : Option (List OrderRecord))
    (productsSrc : Option (List ProductRecord)) (s : Store)
    (h : ordersSrc = none ∨ productsSrc = none) :
    run_pipeline ordersSrc productsSrc s = (false, emptySchemaStore) := by
  rcases h with h | h
  · subst h; cases productsSrc <;> rfl
  · subst h; cases ordersSrc <;> rfl

/-- C3 witness: the amended abort behaviour at the concrete missing-orders
scenario. -/
theorem C3_missing_input_clean_abort_witness :
    run_pipeline none (some sampleProducts) noTablesStore =
      (false, emptySchemaStore) :=
  C3_missing_input_clean_abort none (some sampleProducts) noTablesStore
    (Or.inl rfl)

/-- C4 counterexample: a run that fails mid-way (after schema setup, at the
missing order source) against a store already populated by an earlier load
does not return the store to its pre-run state: the post-run `fact_sales`
table holds strictly fewer rows than the pre-run one, so the two stores
differ. -/
theorem C4_counterexample :
    ((run_pipeline none (some sampleProducts)
        populatedStore).2.fact_sales.getD []).length <
      (populatedStore.fact_sales.getD []).length := by
  decide

/-- C4 amended: the row set of a run is atomic — either the run succeeds and
the full set of dimension and fact rows becomes visible together in the final
commit, or the committed store holds the freshly recreated empty schema; no
partially loaded row set is ever committed.  The run is however not a single
transaction scope: the schema recreation is committed separately by
`setup_database`, so a mid-run failure leaves empty tables rather than the
pre-run state. -/
theorem C4_commit_granularity (ordersSrc : Option (List OrderRecord))
    (productsSrc : Option (List ProductRecord)) (s : Store) :
    (run_pipeline ordersSrc productsSrc s).2 = emptySchemaStore ∨
    (∃ orders products, ordersSrc = some orders ∧ productsSrc = some products
      ∧ run_pipeline ordersSrc productsSrc s =
          (true, loadedStore orders products)) := by
  cases ordersSrc with
  | none => exact Or.inl rfl
  | some orders =>
    cases productsSrc with
    | none => exact Or.inl rfl
    | some products =>
      show (match save_to_database connEmpty
          (process_data orders products) with
        | some c2 => (true, c2.committed)
        | none => (false, connEmpty.committed)).2 = emptySchemaStore ∨ _
      cases hsave : save_to_database connEmpty (process_data orders products)
        with
      | none => exact Or.inl rfl
      | some c2 =>
        refine Or.inr ⟨orders, products, rfl, rfl, ?_⟩
        obtain ⟨hc2, -⟩ := save_connEmpty_some _ _ hsave
        show (match save_to_database connEmpty
            (process_data orders products) with
          | some c2 => (true, c2.committed)
          | none => (false, connEmpty.committed)) = _
        rw [hsave, hc2, loadedStore_eq_loadedOf]

/-- C1: for a successful pipeline run, every fact row stored in `fact_sales`
carries a revenue equal to quantity times price exactly, with no rounding at
storage time. -/
theorem C1_revenue_exact (orders : List OrderRecord)
    (products : List ProductRecord) (s s2 : Store)
    (h : run_pipeline (some orders) (some products) s = (true, s2))
    (r : FactRow) (hr : r ∈ s2.fact_sales.getD []) :
    r.revenue = (r.quantity : ℚ) * r.price := by
  have h2 : (match save_to_database connEmpty
      (process_data orders products) with
    | some c2 => (true, c2.committed)
    | none => (false, connEmpty.committed)) = (true, s2) := h
  cases hsave : save_to_database connEmpty (process_data orders products) with
  | none => rw [hsave] at h2; cases h2
  | some c2 =>
    rw [hsave] at h2
    obtain ⟨hc2, -⟩ := save_connEmpty_some _ _ hsave
    have hs2 : s2 = loadedOf (process_data orders products) := by
      have := congrArg Prod.snd h2
      simp only at this
      rw [← this, hc2]
    rw [hs2] at hr
    simp only [loadedOf, Option.getD_some, process_data, List.mem_map] at hr
    obtain ⟨op, -, hop⟩ := hr
    subst hop
    rfl

/-- C1 witness: the first stored fact row of the sample run satisfies the
exact revenue identity. -/
theorem C1_revenue_exact_witness :
    (mkFactRow orderA).revenue =
      ((mkFactRow orderA).quantity : ℚ) * (mkFactRow orderA).price :=
  C1_revenue_exact sampleOrders sampleProducts noTablesStore
    (loadedStore sampleOrders sampleProducts) rfl (mkFactRow orderA)
    (List.mem_cons_self _ _)

/-- C9: after every successful run, no dimension table contains two rows with
the same key value: the product, date and customer dimension key columns are
each duplicate-free. -/
theorem C9_dimension_keys_unique (orders : List OrderRecord)
    (products : List ProductRecord) (s s2 : Store)
    (h : run_pipeline (some orders) (some products) s = (true, s2)) :
    ((s2.dim_product.getD []).map (fun r => r.product_id)).Nodup ∧
    ((s2.dim_date.getD []).map (fun r => r.date_key)).Nodup ∧
    (s2.dim_customer.getD []).Nodup := by
  have h2 : (match save_to_database connEmpty
      (process_data orders products) with
    | some c2 => (true, c2.committed)
    | none => (false, connEmpty.committed)) = (true, s2) := h
  cases hsave : save_to_database connEmpty (process_data orders products) with
  | none => rw [hsave] at h2; cases h2
  | some c2 =>
    rw [hsave] at h2
    obtain ⟨hc2, hnp, hnc, hnd⟩ := save_connEmpty_some _ _ hsave
    have hs2 : s2 = loadedOf (process_data orders products) := by
      have := congrArg Prod.snd h2
      simp only at this
      rw [← this, hc2]
    rw [hs2]
    exact ⟨hnp, hnd, hnc⟩

/-- C9 witness: key uniqueness of the three dimension tables after the
concrete sample run. -/
theorem C9_dimension_keys_unique_witness :
    (((loadedStore sampleOrders sampleProducts).dim_product.getD []).map
      (fun r => r.product_id)).Nodup ∧
    (((loadedStore sampleOrders sampleProducts).dim_date.getD []).map
      (fun r => r.date_key)).Nodup ∧
    ((loadedStore sampleOrders sampleProducts).dim_customer.getD []).Nodup :=
  C9_dimension_keys_unique sampleOrders sampleProducts noTablesStore
    (loadedStore sampleOrders sampleProducts) rfl

/-- C7: the product-performance query does NOT guard the profit-margin
division.  Concrete failing input: a single order with a zero unit price.
Its product group has total revenue `0`, yet the margin division
`(SUM(Revenue) - SUM(Cost*Quantity)) / SUM(Revenue)` is still evaluated for
that group — the SQL text contains no `CASE`/`NULLIF` guard — with the zero
denominator (SQLite then yields `NULL`, modelled as `none`).  This
contradicts the claim that the division is never evaluated for a product
whose total revenue is zero. -/
theorem C7_margin_division_unguarded :
    (run_product_performance
        (process_data [orderZeroPrice] [keyboard]).fact
        (process_data [orderZeroPrice] [keyboard]).product_dim).map
      (fun r => (r.totalRevenue, r.profitMarginPercent,
        r.divisionByZeroEvaluated)) = [(0, none, true)] := by
  have hfact : (process_data [orderZeroPrice] [keyboard]).fact =
      [mkFactRow orderZeroPrice] := rfl
  have hdim : (process_data [orderZeroPrice] [keyboard]).product_dim =
      [{ product_id := "P001", product_name := "Keyboard",
         category := "Peripherals", cost := 10 }] := rfl
  rw [hfact, hdim]
  simp only [run_product_performance, List.filter_cons, List.filter_nil,
    List.any_cons, List.any_nil, mkFactRow, revenueOf, orderZeroPrice]
  norm_num [sqlRound2]

/-- C6: Running the full pipeline twice on the same inputs leaves the store
with table contents identical to those after a single run: the second run
starts by dropping and recreating all four tables, so the final store never
depends on the pre-run state. -/
theorem C6_rerun_idempotent (ordersSrc : Option (List OrderRecord))
    (productsSrc : Option (List ProductRecord)) (s : Store) :
    (run_pipeline ordersSrc productsSrc
        (run_pipeline ordersSrc productsSrc s).2).2 =
      (run_pipeline ordersSrc productsSrc s).2 := by
  cases ordersSrc <;> cases productsSrc <;> rfl

/-- C2: for every order source whose dates are calendar dates and every
product source in which each product identifier occurs at most once, the run
succeeds and the number of rows in `fact_sales` equals the number of rows in
the order source — no order line is dropped and none is duplicated. -/
theorem C2_fact_row_count (orders : List OrderRecord)
    (products : List ProductRecord) (s : Store)
    (h1 : (products.map fun p => p.productID).Nodup)
    (h2 : ∀ o ∈ orders, ValidDate o.orderDate) :
    (run_pipeline (some orders) (some products) s).1 = true ∧
    ((run_pipeline (some orders) (some products) s).2.fact_sales.getD
      []).length = orders.length := by
  have hp : ((process_data orders products).product_dim.map
      fun r => r.product_id).Nodup := by
    simpa [process_data, productDim, List.map_map, Function.comp] using h1
  have hc : (process_data orders products).customer_dim.Nodup :=
    nodup_uniqueFirst _
  have hd : ((process_data orders products).date_dim.map
      fun r => r.date_key).Nodup := by
    simp only [process_data, dateDim, List.map_map]
    refine List.Nodup.map_on ?_ (nodup_uniqueFirst _)
    intro x hx y hy hxy
    have hx2 := (mem_uniqueFirst x _).mp hx
    have hy2 := (mem_uniqueFirst y _).mp hy
    simp only [List.mem_map] at hx2 hy2
    obtain ⟨ox, hox, rfl⟩ := hx2
    obtain ⟨oy, hoy, rfl⟩ := hy2
    exact dateKey_injOn _ _ (h2 ox hox) (h2 oy hoy) hxy
  have hsave := save_connEmpty_pos _ hp hc hd
  constructor
  · show (match save_to_database connEmpty (process_data orders products) with
      | some c2 => (true, c2.committed)
      | none => (false, connEmpty.committed)).1 = true
    rw [hsave]
  · show ((match save_to_database connEmpty
        (process_data orders products) with
      | some c2 => (true, c2.committed)
      | none => (false, connEmpty.committed)).2.fact_sales.getD []).length
      = orders.length
    rw [hsave]
    show (process_data orders products).fact.length = orders.length
    simp only [process_data, List.length_map]
    exact length_mergeLeft orders products (count_filter_le_one products h1)

/-- C2 witness: the concrete sample run succeeds and stores exactly one fact
row per order line. -/
theorem C2_fact_row_count_witness :
    (run_pipeline (some sampleOrders) (some sampleProducts)
      noTablesStore).1 = true ∧
    ((run_pipeline (some sampleOrders) (some sampleProducts)
      noTablesStore).2.fact_sales.getD []).length = sampleOrders.length :=
  C2_fact_row_count sampleOrders sampleProducts noTablesStore (by decide)
    (by decide)

/-- C5: after the transform, the set of `date_key` values in the date
dimension equals the set of normalized (`YYYY-MM-DD`) order dates, and every
date-dimension row satisfies the quarter formula
`quarter = ((month - 1) / 3) + 1`. -/
theorem C5_date_dimension (orders : List OrderRecord)
    (products : List ProductRecord) :
    (∀ k, (k ∈ (process_data orders products).date_dim.map
        fun r => r.date_key) ↔
      k ∈ orders.map fun o => dateKey o.orderDate) ∧
    ∀ r ∈ (process_data orders products).date_dim,
      r.quarter = (r.month - 1) / 3 + 1 := by
  constructor
  · intro k
    simp only [process_data, dateDim, List.map_map, List.mem_map,
      Function.comp]
    constructor
    · rintro ⟨d, hd, rfl⟩
      have hmem := (mem_uniqueFirst d _).mp hd
      simp only [List.mem_map] at hmem
      obtain ⟨o, ho, rfl⟩ := hmem
      exact ⟨o, ho, rfl⟩
    · rintro ⟨o, ho, rfl⟩
      refine ⟨o.orderDate, ?_, rfl⟩
      rw [mem_uniqueFirst]
      exact List.mem_map_of_mem _ ho
  · intro r hr
    simp only [process_data, dateDim, List.mem_map] at hr
    obtain ⟨d, -, rfl⟩ := hr
    rfl

/-- C5 witness: the sample date key is in the date dimension exactly as it is
among the normalized order dates, and the quarter formula holds on the
corresponding concrete row. -/
theorem C5_date_dimension_witness :
    ((dateKey { year := 2024, month := 1, day := 5 } ∈
        (process_data sampleOrders sampleProducts).date_dim.map
          fun r => r.date_key) ↔
      dateKey { year := 2024, month := 1, day := 5 } ∈
        sampleOrders.map fun o => dateKey o.orderDate) ∧
    (mkDateRow { year := 2024, month := 1, day := 5 }).quarter =
      ((mkDateRow { year := 2024, month := 1, day := 5 }).month - 1) / 3 + 1 :=
  ⟨(C5_date_dimension sampleOrders sampleProducts).1 _,
   (C5_date_dimension sampleOrders sampleProducts).2 _ (by decide)⟩

/-- C8: every order whose product identifier is absent from the product
source still yields its fact row, carrying that product identifier; and the
data-quality check's Missing Product References count equals the number of
fact rows whose product identifier matches no product row, which is exactly
the number of such orders. -/
theorem C8_missing_product_references (orders : List OrderRecord)
    (products : List ProductRecord) :
    (∀ o ∈ orders,
      (products.all fun p => p.productID != o.productID) = true →
      mkFactRow o ∈ (process_data orders products).fact ∧
      (mkFactRow o).product_id = o.productID) ∧
    missingProductReferences (process_data orders products).fact
        (process_data orders products).product_dim =
      (orders.filter fun o =>
        products.all fun p => p.productID != o.productID).length := by
  have hall : ∀ (l : List ProductRecord) (x : String),
      (l.all fun p => p.productID != x) = !(l.any fun p => p.productID == x) := by
    intro l x
    induction l with
    | nil => rfl
    | cons p ps ih =>
      rw [List.all_cons, List.any_cons, Bool.not_or, ih]
      rfl
  have hdim : ∀ x, ((productDim products).any fun r => r.product_id == x)
      = (products.any fun p => p.productID == x) := by
    intro x
    rw [productDim]
    induction products with
    | nil => rfl
    | cons p ps ih => rw [List.map_cons, List.any_cons, List.any_cons, ih]
  constructor
  · intro o ho _
    refine ⟨?_, rfl⟩
    simp only [process_data, List.mem_map]
    cases hf : products.filter (fun p => p.productID == o.productID) with
    | nil =>
      refine ⟨(o, none), ?_, rfl⟩
      rw [mergeLeft, List.mem_flatMap]
      refine ⟨o, ho, ?_⟩
      rw [hf]
      exact List.mem_singleton.mpr rfl
    | cons p ps =>
      refine ⟨(o, some p), ?_, rfl⟩
      rw [mergeLeft, List.mem_flatMap]
      refine ⟨o, ho, ?_⟩
      rw [hf]
      exact List.mem_cons_self _ _
  · simp only [process_data]
    induction orders with
    | nil => rfl
    | cons o os ih =>
      rw [mergeLeft_cons, List.map_append]
      unfold missingProductReferences at ih ⊢
      rw [List.filter_append, List.length_append, ih, List.filter_cons]
      cases hfil : products.filter (fun p => p.productID == o.productID) with
      | nil =>
        have hany : (products.any fun p => p.productID == o.productID)
            = false := by
          rw [List.any_eq_false]
          intro p hp
          have := List.filter_eq_nil_iff.mp hfil p hp
          simpa using this
        have hpred : (products.all fun p => p.productID != o.productID)
            = true := by
          rw [hall, hany]
          rfl
        rw [hpred]
        show (([(o, (none : Option ProductRecord))].map
            fun op => mkFactRow op.1).filter
          (fun f => !((productDim products).any
            fun p => p.product_id == f.product_id))).length +
          (os.filter fun o =>
            products.all fun p => p.productID != o.productID).length = _
        simp only [List.map_cons, List.map_nil, List.filter_cons, mkFactRow,
          hdim, hany, Bool.not_false, if_true, List.filter_nil,
          List.length_cons, List.length_nil]
        omega
      | cons p ps =>
        have hany : (products.any fun p => p.productID == o.productID)
            = true := by
          rw [List.any_eq_true]
          refine ⟨p, ?_, ?_⟩
          · exact List.mem_of_mem_filter (hfil ▸ List.mem_cons_self p ps)
          · have := List.of_mem_filter (hfil ▸ List.mem_cons_self p ps)
            exact this
        have hpred : (products.all fun p => p.productID != o.productID)
            = false := by
          rw [hall, hany]
          rfl
        rw [hpred]
        have hzero : ((((p :: ps).map fun q => (o, some q)).map
            fun op => mkFactRow op.1).filter
          (fun f => !((productDim products).any
            fun q => q.product_id == f.product_id))).length = 0 := by
          rw [List.length_eq_zero, List.filter_eq_nil_iff]
          intro f hf
          simp only [List.map_map, List.mem_map, Function.comp] at hf
          obtain ⟨q, -, rfl⟩ := hf
          simp only [mkFactRow, hdim, hany, Bool.not_true]
          exact fun hcon => by cases hcon
        show ((((p :: ps).map fun q => (o, some q)).map
            fun op => mkFactRow op.1).filter
          (fun f => !((productDim products).any
            fun q => q.product_id == f.product_id))).length +
          (os.filter fun o =>
            products.all fun p => p.productID != o.productID).length = _
        rw [hzero]
        simp

/-- C8 witness: the concrete scenario — one order references `P999`, which is
absent from the product source; its fact row is present carrying `P999`, and
the missing-references count is exactly the count of such orders. -/
theorem C8_missing_product_references_witness :
    (mkFactRow orderMissingProduct ∈
      (process_data [orderMissingProduct, orderA] sampleProducts).fact ∧
     (mkFactRow orderMissingProduct).product_id =
      orderMissingProduct.productID) ∧
    missingProductReferences
        (process_data [orderMissingProduct, orderA] sampleProducts).fact
        (process_data [orderMissingProduct, orderA] sampleProducts).product_dim
      = ([orderMissingProduct, orderA].filter fun o =>
          sampleProducts.all fun p => p.productID != o.productID).length :=
  ⟨(C8_missing_product_references [orderMissingProduct, orderA]
      sampleProducts).1 orderMissingProduct (List.mem_cons_self _ _)
      (by decide),
   (C8_missing_product_references [orderMissingProduct, orderA]
      sampleProducts).2⟩

/-- C10: The table names the load stage creates (snake_case) and its
fact-table column names are not the names the report queries reference
(PascalCase); the table names differ even under the case-insensitive
identifier comparison SQLite applies, and the two stages even target
different default database files — the two stages use inconsistent naming
schemes and do not address the same tables. -/
theorem C10_naming_schemes_inconsistent :
    (loadTableNames.all fun n => !(queryTableNames.contains n)) = true ∧
    (loadTableNames.all fun n =>
      queryTableNames.all fun m => !(lowerStr n == lowerStr m)) = true ∧
    (loadFactColumns.all fun n => !(queryFactColumns.contains n)) = true ∧
    (etlDbName == queryDbPath) = false := by
  refine ⟨by decide, by decide, by decide, by decide⟩

end Claims
